import Mathlib

/-!
Verification of the widget-composition layer (`src/main.go`): the style/theme
stack engine, the retained per-identifier state store, and the stateful widget
variants (counter, timer, status message log).

The Go source is shallowly embedded: `float32`/`float64` values become `ℚ`,
Go maps become association lists, pointer-mutated state records become values
threaded explicitly, and the imgui style stacks (an external backend) become
explicit lists with LIFO push/pop, each `PushStyleColorVec4` consing an entry
and `PopStyleColorV n` dropping `n` entries, as the backend documents.
Registered `onChange` callbacks are modelled by the list of values they are
invoked with during an operation.
-/

namespace Gui

/-- Embedding of `imgui.Vec4` (RGBA color), with `ℚ` for `float32`. -/
structure Vec4 where
  x : ℚ
  y : ℚ
  z : ℚ
  w : ℚ
deriving DecidableEq, Repr

/-- Embedding of `RGB` (`src/main.go:1059`): scales 0-255 channels to 0-1. -/
def RGB (r g b : ℚ) : Vec4 :=
  { x := r / 255, y := g / 255, z := b / 255, w := 1 }

/-- `ColorRed` from `src/main.go:33`. -/
def ColorRed : Vec4 := RGB 255 0 0

/-- `ColorBlue` from `src/main.go:35`. -/
def ColorBlue : Vec4 := RGB 0 0 255

/-- The two imgui style stacks: the color stack (pushed by
`PushStyleColorVec4`) and the numeric style-variable stack (pushed by
`PushStyleVarFloat`). The head of each list is the most recently pushed
entry. -/
structure StyleStacks where
  colorStack : List (Int × Vec4)
  varStack : List (Int × ℚ)
deriving DecidableEq, Repr

/-- `imgui.PushStyleColorVec4`: push one (color-id, color) entry. -/
def pushColor (s : StyleStacks) (id : Int) (c : Vec4) : StyleStacks :=
  { s with colorStack := (id, c) :: s.colorStack }

/-- `imgui.PushStyleVarFloat`: push one (var-id, value) entry. -/
def pushVar (s : StyleStacks) (id : Int) (v : ℚ) : StyleStacks :=
  { s with varStack := (id, v) :: s.varStack }

/-- `imgui.PopStyleColorV n`: pop `n` entries from the color stack. -/
def popColors (s : StyleStacks) (n : Nat) : StyleStacks :=
  { s with colorStack := s.colorStack.drop n }

/-- `imgui.PopStyleVarV n`: pop `n` entries from the variable stack. -/
def popVars (s : StyleStacks) (n : Nat) : StyleStacks :=
  { s with varStack := s.varStack.drop n }

/-- The push phase shared by `StyleSetter.Build` (`src/main.go:963-971`) and
`MasterWindow.Run` (`src/main.go:363-374`): push every color of the layer,
then every variable. A Go map iteration is embedded as a list of its entries
in some iteration order. -/
def pushLayer (s : StyleStacks) (colors : List (Int × Vec4))
    (vars : List (Int × ℚ)) : StyleStacks :=
  let s1 := colors.foldl (fun st p => pushColor st p.1 p.2) s
  vars.foldl (fun st p => pushVar st p.1 p.2) s1

/-- The pop phase shared by `StyleSetter.Build` (`src/main.go:980-986`) and
`MasterWindow.Run` (`src/main.go:379-385`): pop `varCount` variables then
`colorCount` colors, the counts having been derived from the pushed layer. -/
def popLayer (s : StyleStacks) (colorCount varCount : Nat) : StyleStacks :=
  popColors (popVars s varCount) colorCount

/-- The composition tree (`Widget` / `Layout` in the source). A `style` node
is a `StyleSetter` (`src/main.go:928`) holding its `colors` and `vars` maps
(as entry lists) and its `widgets` children; a `layout` node is `Layout` /
`ColumnWidget` / `RowWidget` (children built in order); a `leaf` is any
plain widget, identified here by its label. -/
inductive GWidget where
  | leaf (label : String)
  | layout (children : List GWidget)
  | style (colors : List (Int × Vec4)) (vars : List (Int × ℚ))
      (children : List GWidget)
deriving Repr

mutual

/-- Depth-first build of a widget tree, threading the style stacks.
Returns the stacks after the build together with a trace recording, for each
leaf in build order, the style stacks in effect when it was built.
The `style` case embeds `StyleSetter.Build` (`src/main.go:958-987`): it
counts the entries of its maps, pushes them all, builds its children, then
pops exactly `varCount` variables and `colorCount` colors. -/
def GWidget.build (s : StyleStacks) :
    GWidget → StyleStacks × List (String × StyleStacks)
  | .leaf label => (s, [(label, s)])
  | .layout children => GWidget.buildList s children
  | .style colors vars children =>
      let colorCount := colors.length
      let varCount := vars.length
      let r := GWidget.buildList (pushLayer s colors vars) children
      (popLayer r.1 colorCount varCount, r.2)

/-- Build a list of children left to right (`Layout.Build`,
`src/main.go:78-84`). -/
def GWidget.buildList (s : StyleStacks) :
    List GWidget → StyleStacks × List (String × StyleStacks)
  | [] => (s, [])
  | w :: rest =>
      let r1 := GWidget.build s w
      let r2 := GWidget.buildList r1.1 rest
      (r2.1, r1.2 ++ r2.2)

end

/-- Embedding of `Theme` (`src/main.go:990`): a named style layer. -/
structure Theme where
  name : String
  colors : List (Int × Vec4)
  vars : List (Int × ℚ)

/-- One frame of `MasterWindow.Run` (`src/main.go:358-387`): when a global
theme is set, push all its colors and variables (counting them), build the
frame's composition tree, then pop exactly `varCount` variables and
`colorCount` colors. -/
def runFrame (theme : Option Theme) (body : GWidget) (s : StyleStacks) :
    StyleStacks × List (String × StyleStacks) :=
  match theme with
  | none => body.build s
  | some th =>
      let colorCount := th.colors.length
      let varCount := th.vars.length
      let r := body.build (pushLayer s th.colors th.vars)
      (popLayer r.1 colorCount varCount, r.2)

/-- The effective value of color slot `id` given the color stack: the most
recently pushed entry for `id`, or the backend's base value `dflt` when no
entry mentions `id`. This is the imgui backend's documented stack-shadowing
semantics for `PushStyleColorVec4`. -/
def effectiveColor (dflt : Vec4) (id : Int) :
    List (Int × Vec4) → Vec4
  | [] => dflt
  | (i, c) :: rest => if i = id then c else effectiveColor dflt id rest

/-! ### Stack-balance lemmas -/

theorem foldl_pushColor_colorStack (colors : List (Int × Vec4))
    (s : StyleStacks) :
    (colors.foldl (fun st p => pushColor st p.1 p.2) s).colorStack =
      colors.reverse ++ s.colorStack := by
  induction colors generalizing s with
  | nil => simp
  | cons p rest ih =>
      rw [List.foldl_cons, ih]
      simp [pushColor]

theorem foldl_pushColor_varStack (colors : List (Int × Vec4))
    (s : StyleStacks) :
    (colors.foldl (fun st p => pushColor st p.1 p.2) s).varStack =
      s.varStack := by
  induction colors generalizing s with
  | nil => simp
  | cons p rest ih =>
      rw [List.foldl_cons, ih]
      simp [pushColor]

theorem foldl_pushVar_varStack (vars : List (Int × ℚ)) (s : StyleStacks) :
    (vars.foldl (fun st p => pushVar st p.1 p.2) s).varStack =
      vars.reverse ++ s.varStack := by
  induction vars generalizing s with
  | nil => simp
  | cons p rest ih =>
      rw [List.foldl_cons, ih]
      simp [pushVar]

theorem foldl_pushVar_colorStack (vars : List (Int × ℚ)) (s : StyleStacks) :
    (vars.foldl (fun st p => pushVar st p.1 p.2) s).colorStack =
      s.colorStack := by
  induction vars generalizing s with
  | nil => simp
  | cons p rest ih =>
      rw [List.foldl_cons, ih]
      simp [pushVar]

theorem pushLayer_colorStack (s : StyleStacks) (colors : List (Int × Vec4))
    (vars : List (Int × ℚ)) :
    (pushLayer s colors vars).colorStack = colors.reverse ++ s.colorStack := by
  unfold pushLayer
  rw [foldl_pushVar_colorStack, foldl_pushColor_colorStack]

theorem pushLayer_varStack (s : StyleStacks) (colors : List (Int × Vec4))
    (vars : List (Int × ℚ)) :
    (pushLayer s colors vars).varStack = vars.reverse ++ s.varStack := by
  unfold pushLayer
  rw [foldl_pushVar_varStack, foldl_pushColor_varStack]

/-- Popping exactly the counts of a pushed layer restores the stacks. -/
theorem popLayer_pushLayer (s : StyleStacks) (colors : List (Int × Vec4))
    (vars : List (Int × ℚ)) :
    popLayer (pushLayer s colors vars) colors.length vars.length = s := by
  unfold popLayer popVars popColors
  have hc := pushLayer_colorStack s colors vars
  have hv := pushLayer_varStack s colors vars
  cases s with
  | mk cs vs =>
      simp only [hc, hv]
      congr 1
      · rw [show colors.length = colors.reverse.length by simp,
          List.drop_left]
      · rw [show vars.length = vars.reverse.length by simp, List.drop_left]

mutual

/-- Building any widget returns the style stacks exactly as it found them. -/
theorem GWidget.build_fst :
    ∀ (w : GWidget) (s : StyleStacks), (GWidget.build s w).1 = s
  | .leaf _, _ => rfl
  | .layout children, s => GWidget.buildList_fst children s
  | .style colors vars children, s => by
      simp only [GWidget.build]
      rw [GWidget.buildList_fst children (pushLayer s colors vars)]
      exact popLayer_pushLayer s colors vars

/-- Building a list of widgets returns the style stacks unchanged. -/
theorem GWidget.buildList_fst :
    ∀ (ws : List GWidget) (s : StyleStacks), (GWidget.buildList s ws).1 = s
  | [], _ => rfl
  | w :: rest, s => by
      simp only [GWidget.buildList]
      rw [GWidget.buildList_fst rest (GWidget.build s w).1,
        GWidget.build_fst w s]

end

/-- C1: `StyleSetter.Build` pushes exactly `|colors|` color entries and
`|vars|` variable entries, pops exactly those counts (derived from the
layer itself), and therefore — for arbitrary maps, empty maps included,
and arbitrarily nested children — leaves both style stacks at exactly
their depths from before the call. -/
theorem styleSetter_build_balances (colors : List (Int × Vec4))
    (vars : List (Int × ℚ)) (children : List GWidget) (s : StyleStacks) :
    (pushLayer s colors vars).colorStack.length =
        s.colorStack.length + colors.length
    ∧ (pushLayer s colors vars).varStack.length =
        s.varStack.length + vars.length
    ∧ popLayer (pushLayer s colors vars) colors.length vars.length = s
    ∧ ((GWidget.style colors vars children).build s).1.colorStack.length =
        s.colorStack.length
    ∧ ((GWidget.style colors vars children).build s).1.varStack.length =
        s.varStack.length := by
  refine ⟨?_, ?_, popLayer_pushLayer s colors vars, ?_, ?_⟩
  · rw [pushLayer_colorStack]; simp [Nat.add_comm]
  · rw [pushLayer_varStack]; simp [Nat.add_comm]
  · rw [GWidget.build_fst]
  · rw [GWidget.build_fst]

/-- C7: with a global theme set, one frame of `MasterWindow.Run` pushes
every theme color and variable exactly once (the whole layer sits on top of
the stacks) before the composition tree is built, builds the tree under
that layer, and afterwards pops exactly the pushed counts, so the frame
returns both stacks exactly as deep as they were before it started. -/
theorem runFrame_theme_balances (th : Theme) (body : GWidget)
    (s : StyleStacks) :
    (pushLayer s th.colors th.vars).colorStack =
        th.colors.reverse ++ s.colorStack
    ∧ (pushLayer s th.colors th.vars).varStack =
        th.vars.reverse ++ s.varStack
    ∧ (runFrame (some th) body s).2 =
        (body.build (pushLayer s th.colors th.vars)).2
    ∧ (runFrame (some th) body s).1 = s := by
  refine ⟨pushLayer_colorStack s th.colors th.vars,
    pushLayer_varStack s th.colors th.vars, rfl, ?_⟩
  simp only [runFrame]
  rw [GWidget.build_fst]
  exact popLayer_pushLayer s th.colors th.vars

/-- `imgui.ColButton`: the color slot for buttons (index 21 in the imgui
`Col` enumeration). -/
def ColButton : Int := 21

/-- The global theme of the shadowing example: `{Button: BLUE}`. -/
def demoTheme : Theme :=
  { name := "Global", colors := [(ColButton, ColorBlue)], vars := [] }

/-- The example tree: a `StyleSetter` override `{Button: RED}` applied to
the subtree holding the leaf `"inside"`, with a sibling leaf `"sibling"`
outside that subtree. -/
def demoTree : GWidget :=
  .layout [.style [(ColButton, ColorRed)] [] [.leaf "inside"],
    .leaf "sibling"]

/-- C8: the effective style for a property is the most-recently-pushed
value: a just-pushed entry for the property always wins (innermost wins),
an entry for a different property is transparent (the outer value stays
visible), and in the concrete frame with global theme `{Button: BLUE}` and
a local override `{Button: RED}` on a subtree, the leaf inside the subtree
is built with effective button color RED while its sibling outside the
subtree is built with BLUE. -/
theorem effective_style_shadowing (dflt : Vec4) :
    (∀ (id : Int) (v : Vec4) (rest : List (Int × Vec4)),
      effectiveColor dflt id ((id, v) :: rest) = v)
    ∧ (∀ (id i : Int) (v : Vec4) (rest : List (Int × Vec4)), i ≠ id →
      effectiveColor dflt id ((i, v) :: rest) = effectiveColor dflt id rest)
    ∧ (runFrame (some demoTheme) demoTree ⟨[], []⟩).2.map
        (fun p => (p.1, effectiveColor dflt ColButton p.2.colorStack)) =
      [("inside", ColorRed), ("sibling", ColorBlue)] := by
  refine ⟨?_, ?_, ?_⟩
  · intro id v rest; simp [effectiveColor]
  · intro id i v rest h; simp [effectiveColor, h]
  · rfl

/-- Witness for the hypothesis-bearing clause of
`effective_style_shadowing`: an entry for color slot 5 is transparent when
looking up slot 21. -/
theorem effective_style_shadowing_witness :
    effectiveColor ⟨0, 0, 0, 0⟩ 21 [(5, ColorRed), (21, ColorBlue)] =
      ColorBlue := by
  have h := effective_style_shadowing ⟨0, 0, 0, 0⟩
  rw [h.2.1 21 5 ColorRed [(21, ColorBlue)] (by decide)]
  exact h.1 21 ColorBlue []

/-! ### The retained state store (`Context.stateMap`, `src/main.go:439-449`) -/

/-- `counterState` (`src/main.go:651`). -/
structure CounterState where
  value : Int
  step : Int
deriving DecidableEq, Repr

/-- `timerState` (`src/main.go:758`), with `ℚ` for `float64`. -/
structure TimerState where
  startTime : ℚ
  elapsedTime : ℚ
  isRunning : Bool
  isPaused : Bool
deriving DecidableEq, Repr

/-- `statusState` (`src/main.go:855`). -/
structure StatusState where
  messages : List String
  timestamps : List ℚ
  maxMessages : Nat
deriving DecidableEq, Repr

/-- The dynamic type of a record stored in `Context.stateMap`
(`map[string]interface{}` in the source): a tagged union whose tag is the
Go type recovered by the type assertion in each widget's `getState`. -/
inductive StateRecord where
  | counterSt (st : CounterState)
  | timerSt (st : TimerState)
  | statusSt (st : StatusState)
deriving DecidableEq, Repr

/-- `Context.stateMap` as an association list from identity key to record. -/
def StateMap := List (String × StateRecord)

/-- Go map read `GlobalContext.stateMap[id]`. -/
def mapLookup : StateMap → String → Option StateRecord
  | [], _ => none
  | (k, v) :: rest, key => if k = key then some v else mapLookup rest key

/-- Go map write `GlobalContext.stateMap[id] = v` (replaces an existing
entry under the key, else adds one). -/
def mapInsert : StateMap → String → StateRecord → StateMap
  | [], key, v => [(key, v)]
  | (k, w) :: rest, key, v =>
      if k = key then (key, v) :: rest else (k, w) :: mapInsert rest key v

theorem mapLookup_mapInsert (m : StateMap) (k : String) (v : StateRecord)
    (k' : String) :
    mapLookup (mapInsert m k v) k' =
      if k = k' then some v else mapLookup m k' := by
  induction m with
  | nil => simp [mapInsert, mapLookup]
  | cons p rest ih =>
      by_cases h : p.1 = k
      · simp only [mapInsert, h, if_pos rfl]
        by_cases h2 : k = k'
        · simp [mapLookup, h2]
        · simp [mapLookup, h2, ← h, h.symm ▸ h2]
      · simp only [mapInsert, if_neg h]
        by_cases h2 : p.1 = k'
        · have : ¬ k = k' := fun hk => h (hk ▸ h2)
          simp [mapLookup, h2, this]
        · simp [mapLookup, h2, ih]

theorem mapLookup_mapInsert_self (m : StateMap) (k : String)
    (v : StateRecord) : mapLookup (mapInsert m k v) k = some v := by
  rw [mapLookup_mapInsert]; simp

/-! ### CounterWidget (`src/main.go:660-755`) -/

/-- `CounterWidget` (`src/main.go:661`); the `onChange` callback is
modelled by the values emitted by each operation. -/
structure CounterWidget where
  id : String
  label : String
  minValue : Int
  maxValue : Int
deriving DecidableEq, Repr

/-- `Counter` (`src/main.go:669`): id `label##counter`, bounds 0..100. -/
def Counter (label : String) : CounterWidget :=
  { id := label ++ "##counter"
    label := label
    minValue := 0
    maxValue := 100 }

/-- `CounterWidget.Min` (`src/main.go:679`). -/
def CounterWidget.Min (c : CounterWidget) (m : Int) : CounterWidget :=
  { c with minValue := m }

/-- `CounterWidget.Max` (`src/main.go:684`). -/
def CounterWidget.Max (c : CounterWidget) (m : Int) : CounterWidget :=
  { c with maxValue := m }

/-- `CounterWidget.getState` (`src/main.go:694-707`): return the stored
record when one exists under the key with the `counterState` tag; in every
other case (no entry, or an entry whose type assertion fails) build a
default record from the widget's configuration and store it under the key,
replacing whatever was there. -/
def CounterWidget.getState (c : CounterWidget) (m : StateMap) :
    CounterState × StateMap :=
  match mapLookup m c.id with
  | some (.counterSt st) => (st, m)
  | _ =>
      let newState : CounterState := { value := c.minValue, step := 1 }
      (newState, mapInsert m c.id (.counterSt newState))

/-- The `"-"` button handler inside `CounterWidget.Build`
(`src/main.go:719-726`): given the button was clicked, decrement only when
`value > minValue` and invoke `onChange` with the new value. -/
def CounterWidget.clickMinus (c : CounterWidget) (s : CounterState) :
    CounterState × List Int :=
  if c.minValue < s.value then
    ({ s with value := s.value - 1 }, [s.value - 1])
  else (s, [])

/-- The `"+"` button handler inside `CounterWidget.Build`
(`src/main.go:732-739`): given the button was clicked, increment only when
`value < maxValue` and invoke `onChange` with the new value. -/
def CounterWidget.clickPlus (c : CounterWidget) (s : CounterState) :
    CounterState × List Int :=
  if s.value < c.maxValue then
    ({ s with value := s.value + 1 }, [s.value + 1])
  else (s, [])

/-- A sequence of button interactions (`true` = `"+"` click, `false` =
`"-"` click), collecting every `onChange` invocation in order. -/
def CounterWidget.clickSeq (c : CounterWidget) :
    List Bool → CounterState → CounterState × List Int
  | [], s => (s, [])
  | p :: rest, s =>
      let r1 := if p then c.clickPlus s else c.clickMinus s
      let r2 := CounterWidget.clickSeq c rest r1.1
      (r2.1, r1.2 ++ r2.2)

/-- `CounterWidget.SetValue` (`src/main.go:750-755`): fetch (or create)
the state, then overwrite `value` only when `minValue ≤ v ≤ maxValue`.
No `onChange` call appears in the source, so no value is ever emitted. -/
def CounterWidget.SetValue (c : CounterWidget) (v : Int) (m : StateMap) :
    StateMap × List Int :=
  let r := c.getState m
  if c.minValue ≤ v ∧ v ≤ c.maxValue then
    (mapInsert r.2 c.id (.counterSt { r.1 with value := v }), [])
  else (r.2, [])

/-! ### TimerWidget (`src/main.go:757-852`) -/

/-- `TimerWidget` (`src/main.go:770`). -/
structure TimerWidget where
  id : String
  label : String
deriving DecidableEq, Repr

/-- `Timer` (`src/main.go:775`). -/
def Timer (label : String) : TimerWidget :=
  { id := label ++ "##timer", label := label }

/-- `TimerWidget.getState` (`src/main.go:782-797`); `t` is `imgui.Time()`
at the call. -/
def TimerWidget.getState (w : TimerWidget) (t : ℚ) (m : StateMap) :
    TimerState × StateMap :=
  match mapLookup m w.id with
  | some (.timerSt st) => (st, m)
  | _ =>
      let newState : TimerState :=
        { startTime := t
          elapsedTime := 0
          isRunning := false
          isPaused := false }
      (newState, mapInsert m w.id (.timerSt newState))

/-- The top of `TimerWidget.Build` (`src/main.go:803-805`): every Build,
while running and not paused, derive `elapsedTime = currentTime -
startTime`; otherwise leave the state untouched. -/
def timerTick (t : ℚ) (s : TimerState) : TimerState :=
  if s.isRunning && !s.isPaused then
    { s with elapsedTime := t - s.startTime }
  else s

/-- The `Start` button handler (`src/main.go:814-818`). -/
def timerStart (t : ℚ) (s : TimerState) : TimerState :=
  { s with
    startTime := t - s.elapsedTime
    isRunning := true
    isPaused := false }

/-- The `Pause` button handler (`src/main.go:821-823`). -/
def timerPause (s : TimerState) : TimerState :=
  { s with isPaused := true }

/-- The `Resume` button handler (`src/main.go:825-829`). -/
def timerResume (t : ℚ) (s : TimerState) : TimerState :=
  { s with
    startTime := t - s.elapsedTime
    isPaused := false }

/-- The `Stop` button handler (`src/main.go:833-837`). -/
def timerStop (s : TimerState) : TimerState :=
  { s with
    isRunning := false
    isPaused := false
    elapsedTime := 0 }

/-- The `Reset` button handler (`src/main.go:840-843`). -/
def timerReset (t : ℚ) (s : TimerState) : TimerState :=
  { s with
    startTime := t
    elapsedTime := 0 }

/-! ### StatusDisplayWidget (`src/main.go:854-925`) -/

/-- `StatusDisplayWidget` (`src/main.go:867`). -/
structure StatusDisplayWidget where
  id : String
  height : ℚ
deriving DecidableEq, Repr

/-- `StatusDisplay` (`src/main.go:872`). -/
def StatusDisplay : StatusDisplayWidget :=
  { id := "##status_display", height := 100 }

/-- `StatusDisplayWidget.getState` (`src/main.go:884-898`): default is an
empty log bounded at 100 entries. -/
def StatusDisplayWidget.getState (w : StatusDisplayWidget) (m : StateMap) :
    StatusState × StateMap :=
  match mapLookup m w.id with
  | some (.statusSt st) => (st, m)
  | _ =>
      let newState : StatusState :=
        { messages := [], timestamps := [], maxMessages := 100 }
      (newState, mapInsert m w.id (.statusSt newState))

/-- The state mutation of `StatusDisplayWidget.AddMessage`
(`src/main.go:900-911`): append `(message, t)` to the two parallel lists,
then, when the message count exceeds `maxMessages`, drop the front entry
of both. -/
def StatusState.addMessage (s : StatusState) (message : String) (t : ℚ) :
    StatusState :=
  if s.maxMessages < (s.messages ++ [message]).length then
    { s with
      messages := (s.messages ++ [message]).drop 1
      timestamps := (s.timestamps ++ [t]).drop 1 }
  else
    { s with
      messages := s.messages ++ [message]
      timestamps := s.timestamps ++ [t] }

/-- `StatusDisplayWidget.Build` (`src/main.go:913-925`): walk the log
newest-first, displaying entries younger than 10 time-units as (age,
message) pairs; the state itself is only read. -/
def StatusDisplayWidget.Build (t : ℚ) (s : StatusState) :
    StatusState × List (ℚ × String) :=
  (s, (s.messages.zip s.timestamps).reverse.filterMap
    (fun p => if t - p.2 < 10 then some (t - p.2, p.1) else none))

/-! ### Store and counter theorems -/

/-- C2: at the failing input — a `timerState` record already stored under
the key `"x##counter"`, requested by a counter widget — `getState`
raises no error at all: it silently replaces the existing record with a
fresh default `counterState` and returns that, contradicting the spec's
demand for an immediately-reported fatal `TypeMismatchError` with the
existing record left in place. -/
theorem counter_getState_replaces_mismatched_record :
    (Counter "x").getState
        [("x##counter", .timerSt ⟨0, 0, false, false⟩)] =
      ({ value := 0, step := 1 },
        [("x##counter", .counterSt { value := 0, step := 1 })]) := by
  rfl

/-- After any `getState`, the store holds the returned record under the
widget's key. -/
theorem CounterWidget.getState_lookup (c : CounterWidget) (m : StateMap) :
    mapLookup (c.getState m).2 c.id =
      some (.counterSt (c.getState m).1) := by
  unfold CounterWidget.getState
  cases h : mapLookup m c.id with
  | none => simp [h, mapLookup_mapInsert_self]
  | some r =>
      cases r with
      | counterSt st => simp [h]
      | timerSt st => simp [h, mapLookup_mapInsert_self]
      | statusSt st => simp [h, mapLookup_mapInsert_self]

/-- When a matching record is stored, `getState` returns it and leaves the
store untouched. -/
theorem CounterWidget.getState_of_lookup (c : CounterWidget)
    (st : CounterState) (m : StateMap)
    (h : mapLookup m c.id = some (.counterSt st)) :
    c.getState m = (st, m) := by
  unfold CounterWidget.getState
  rw [h]

/-- A sequence of `getState` calls, each seeing the store left by the
previous one, collecting the returned records. -/
def getStateRuns : List CounterWidget → StateMap →
    List CounterState × StateMap
  | [], m => ([], m)
  | c :: rest, m =>
      let r := c.getState m
      let rs := getStateRuns rest r.2
      (r.1 :: rs.1, rs.2)

theorem getStateRuns_stable (ws : List CounterWidget) :
    ∀ (m : StateMap) (k : String) (st : CounterState),
      (∀ w ∈ ws, w.id = k) → mapLookup m k = some (.counterSt st) →
      getStateRuns ws m = (List.replicate ws.length st, m) := by
  induction ws with
  | nil => intro m k st _ _; rfl
  | cons w rest ih =>
      intro m k st hids hm
      have hw : w.id = k := hids w (List.mem_cons_self w rest)
      have hg := CounterWidget.getState_of_lookup w st m (hw ▸ hm)
      simp only [getStateRuns, hg,
        ih m k st (fun x hx => hids x (List.mem_cons_of_mem w hx)) hm,
        List.length_cons, List.replicate_succ]

/-- C3: for a fixed key, `getState` is idempotent — however many further
calls follow the first (each with arbitrary default configuration, as long
as they carry the same key), every call returns exactly the record the
first call returned, and the store never changes after the first call, so
only the first call's default initialization is ever observed. -/
theorem counter_getState_idempotent (c : CounterWidget)
    (rest : List CounterWidget) (m : StateMap)
    (h : ∀ w ∈ rest, w.id = c.id) :
    getStateRuns (c :: rest) m =
      (List.replicate (rest.length + 1) (c.getState m).1,
        (c.getState m).2) := by
  simp only [getStateRuns,
    getStateRuns_stable rest (c.getState m).2 c.id (c.getState m).1 h
      (CounterWidget.getState_lookup c m),
    List.replicate_succ]

/-- Witness for `counter_getState_idempotent`: two calls under the key
`"x##counter"`, the second with a different default configuration. -/
theorem counter_getState_idempotent_witness :
    getStateRuns [Counter "x", (Counter "x").Min 5] [] =
      (List.replicate 2 ((Counter "x").getState []).1,
        ((Counter "x").getState []).2) := by
  have hids : ∀ w ∈ [(Counter "x").Min 5], w.id = (Counter "x").id := by
    intro w hw
    simp only [List.mem_singleton] at hw
    subst hw
    rfl
  simpa using counter_getState_idempotent (Counter "x")
    [(Counter "x").Min 5] [] hids

/-- The counter of the spec's clamp example: bounds `[0, 5]`. -/
def demoCounter : CounterWidget := ((Counter "x").Min 0).Max 5

/-- C4: a `"-"` click decrements exactly when `value > min` and a `"+"`
click increments exactly when `value < max`; an out-of-range request
leaves the state untouched and fires no callback; the callback fires
exactly on effective changes, once, with the new value; and the spec's
scenario holds: on `[0, 5]` starting at 0, three decrements leave 0 with
no callback, six increments reach 5 with exactly the five callback values
1, 2, 3, 4, 5. -/
theorem counter_clamp_and_callback (c : CounterWidget) (s : CounterState) :
    (c.minValue < s.value →
      c.clickMinus s = ({ s with value := s.value - 1 }, [s.value - 1]))
    ∧ (¬ c.minValue < s.value → c.clickMinus s = (s, []))
    ∧ (s.value < c.maxValue →
      c.clickPlus s = ({ s with value := s.value + 1 }, [s.value + 1]))
    ∧ (¬ s.value < c.maxValue → c.clickPlus s = (s, []))
    ∧ ((c.clickMinus s).2 = [] ↔ (c.clickMinus s).1.value = s.value)
    ∧ ((c.clickPlus s).2 = [] ↔ (c.clickPlus s).1.value = s.value)
    ∧ demoCounter.clickSeq [false, false, false]
        (demoCounter.getState []).1 = ((demoCounter.getState []).1, [])
    ∧ demoCounter.clickSeq (List.replicate 6 true)
        (demoCounter.getState []).1 =
        ({ value := 5, step := 1 }, [1, 2, 3, 4, 5]) := by
  refine ⟨fun hv => ?_, fun hv => ?_, fun hv => ?_, fun hv => ?_,
    ?_, ?_, by decide, by decide⟩
  · simp [CounterWidget.clickMinus, hv]
  · simp [CounterWidget.clickMinus, hv]
  · simp [CounterWidget.clickPlus, hv]
  · simp [CounterWidget.clickPlus, hv]
  · unfold CounterWidget.clickMinus
    split
    · simp
    · simp
  · unfold CounterWidget.clickPlus
    split
    · simp
    · simp

/-- Witness for `counter_clamp_and_callback`: a decrement at the minimum
and an increment at the maximum are silent no-ops. -/
theorem counter_clamp_and_callback_witness :
    demoCounter.clickMinus { value := 0, step := 1 } =
      ({ value := 0, step := 1 }, [])
    ∧ demoCounter.clickPlus { value := 5, step := 1 } =
      ({ value := 5, step := 1 }, []) := by
  have h1 := counter_clamp_and_callback demoCounter { value := 0, step := 1 }
  have h2 := counter_clamp_and_callback demoCounter { value := 5, step := 1 }
  exact ⟨h1.2.1 (by decide), h2.2.2.2.1 (by decide)⟩

/-- C10: when a counter record is stored under the widget's key,
`SetValue v` with `min ≤ v ≤ max` overwrites only the `value` field (the
`step` field is preserved); `SetValue v` out of range changes nothing; and
no `onChange` value is ever emitted by `SetValue` — in contrast with a
`"+"` click, which emits the new value on every effective change. -/
theorem counter_setValue_silent (c : CounterWidget) (v : Int)
    (m : StateMap) (st : CounterState)
    (h : mapLookup m c.id = some (.counterSt st)) :
    (c.minValue ≤ v ∧ v ≤ c.maxValue →
      (c.SetValue v m).1 =
        mapInsert m c.id (.counterSt { value := v, step := st.step }))
    ∧ (¬ (c.minValue ≤ v ∧ v ≤ c.maxValue) → (c.SetValue v m).1 = m)
    ∧ (c.SetValue v m).2 = []
    ∧ (st.value < c.maxValue → (c.clickPlus st).2 = [st.value + 1]) := by
  have hg := CounterWidget.getState_of_lookup c st m h
  refine ⟨fun hv => ?_, fun hv => ?_, ?_, fun hv => ?_⟩
  · simp [CounterWidget.SetValue, hg, if_pos hv]
  · simp [CounterWidget.SetValue, hg, if_neg hv]
  · unfold CounterWidget.SetValue
    split <;> rfl
  · simp [CounterWidget.clickPlus, hv]

/-- Witness for `counter_setValue_silent`: an in-range `SetValue 7` on a
stored record with value 2 rewrites the value, keeps the step, and emits
no callback value. -/
theorem counter_setValue_silent_witness :
    ((Counter "x").SetValue 7 [("x##counter", .counterSt ⟨2, 1⟩)]).1 =
      [("x##counter", .counterSt ⟨7, 1⟩)]
    ∧ ((Counter "x").SetValue 7 [("x##counter", .counterSt ⟨2, 1⟩)]).2 =
      [] := by
  have h := counter_setValue_silent (Counter "x") 7
    [("x##counter", .counterSt ⟨2, 1⟩)] ⟨2, 1⟩ (by rfl)
  refine ⟨?_, h.2.2.1⟩
  rw [h.1 (by decide)]
  rfl

/-! ### Timer theorems -/

/-- C5: while running and unpaused every Build derives
`elapsed = currentTime - startTime`; a Build while paused leaves the state
(hence `elapsed`) exactly as it was; Resume re-anchors
`startTime = currentTime - elapsed`, so a Build at a later time shows the
accumulated time plus only the time since the resume; and the spec's
scenario holds: run 10 units, pause 5, resume 5 — elapsed reads 10, 10,
then 15. -/
theorem timer_pause_resume_preserves_elapsed :
    (∀ (t : ℚ) (s : TimerState), s.isRunning = true → s.isPaused = false →
      (timerTick t s).elapsedTime = t - s.startTime)
    ∧ (∀ (t : ℚ) (s : TimerState), s.isPaused = true → timerTick t s = s)
    ∧ (∀ (t : ℚ) (s : TimerState),
      (timerResume t s).startTime = t - s.elapsedTime)
    ∧ (∀ (t u : ℚ) (s : TimerState), s.isRunning = true →
      (timerTick u (timerResume t s)).elapsedTime =
        s.elapsedTime + (u - t))
    ∧ (timerTick 10 (timerStart 0
        (timerTick 0 ((Timer "t").getState 0 []).1))).elapsedTime = 10
    ∧ (timerTick 15 (timerPause (timerTick 10 (timerStart 0
        (timerTick 0 ((Timer "t").getState 0 []).1))))).elapsedTime = 10
    ∧ (timerTick 20 (timerResume 15 (timerTick 15 (timerPause
        (timerTick 10 (timerStart 0 (timerTick 0
        ((Timer "t").getState 0 []).1))))))).elapsedTime = 15 := by
  refine ⟨fun t s h1 h2 => ?_, fun t s h => ?_, fun t s => rfl,
    fun t u s h => ?_,
    by norm_num [timerTick, timerStart, timerPause, timerResume,
      TimerWidget.getState, Timer, mapLookup],
    by norm_num [timerTick, timerStart, timerPause, timerResume,
      TimerWidget.getState, Timer, mapLookup],
    by norm_num [timerTick, timerStart, timerPause, timerResume,
      TimerWidget.getState, Timer, mapLookup]⟩
  · simp [timerTick, h1, h2]
  · simp [timerTick, h]
  · simp [timerTick, timerResume, h]
    ring

/-- Witness for `timer_pause_resume_preserves_elapsed`: concrete running,
paused, and resumed states. -/
theorem timer_pause_resume_preserves_elapsed_witness :
    (timerTick 3 ⟨1, 0, true, false⟩).elapsedTime = 3 - 1
    ∧ timerTick 3 ⟨1, 7, true, true⟩ = ⟨1, 7, true, true⟩
    ∧ (timerTick 20 (timerResume 15 ⟨5, 10, true, true⟩)).elapsedTime =
      10 + (20 - 15) := by
  have h := timer_pause_resume_preserves_elapsed
  exact ⟨h.1 3 ⟨1, 0, true, false⟩ rfl rfl, h.2.1 3 ⟨1, 7, true, true⟩ rfl,
    h.2.2.2.1 15 20 ⟨5, 10, true, true⟩ rfl⟩

/-! ### Status-log theorems -/

/-- An over-capacity add (the count after appending exceeds `maxMessages`)
appends at the back and evicts the front of both parallel lists. -/
theorem addMessage_of_over (s : StatusState) (x : String) (t : ℚ)
    (hc : s.maxMessages < s.messages.length + 1) :
    s.addMessage x t =
      { s with
        messages := (s.messages ++ [x]).drop 1
        timestamps := (s.timestamps ++ [t]).drop 1 } := by
  unfold StatusState.addMessage
  rw [if_pos (by simpa using hc)]

/-- An add within capacity appends at the back of both parallel lists. -/
theorem addMessage_of_le (s : StatusState) (x : String) (t : ℚ)
    (hc : s.messages.length + 1 ≤ s.maxMessages) :
    s.addMessage x t =
      { s with
        messages := s.messages ++ [x]
        timestamps := s.timestamps ++ [t] } := by
  unfold StatusState.addMessage
  rw [if_neg (by simp; omega)]

/-- `addMessage` never changes the capacity. -/
theorem addMessage_maxMessages (s : StatusState) (x : String) (t : ℚ) :
    (s.addMessage x t).maxMessages = s.maxMessages := by
  unfold StatusState.addMessage
  split <;> rfl

/-- A sequence of `AddMessage` calls in order. -/
def addMessages (s : StatusState) (adds : List (String × ℚ)) : StatusState :=
  adds.foldl (fun st p => st.addMessage p.1 p.2) s

theorem addMessages_messages (adds : List (String × ℚ)) :
    ∀ (s : StatusState), s.messages.length ≤ s.maxMessages →
      (addMessages s adds).messages =
        (s.messages ++ adds.map Prod.fst).drop
          (s.messages.length + adds.length - s.maxMessages) := by
  induction adds with
  | nil =>
      intro s h
      simp [addMessages, Nat.sub_eq_zero_of_le h]
  | cons p rest ih =>
      intro s h
      have hstep : addMessages s (p :: rest) =
          addMessages (s.addMessage p.1 p.2) rest := rfl
      by_cases hc : s.maxMessages < s.messages.length + 1
      · have hlen : s.messages.length = s.maxMessages := by omega
        rw [hstep, addMessage_of_over s p.1 p.2 hc]
        have h2 := ih
          { s with
            messages := (s.messages ++ [p.1]).drop 1
            timestamps := (s.timestamps ++ [p.2]).drop 1 }
          (by simp; omega)
        simp only [List.length_drop, List.length_append,
          List.length_singleton] at h2
        rw [h2]
        obtain ⟨a, l2, hl⟩ :
            ∃ a l2, s.messages ++ [p.1] = a :: l2 :=
          List.exists_cons_of_ne_nil (by simp)
        have hms : s.messages ++ p.1 :: rest.map Prod.fst =
            a :: (l2 ++ rest.map Prod.fst) := by
          rw [show s.messages ++ p.1 :: rest.map Prod.fst =
            (s.messages ++ [p.1]) ++ rest.map Prod.fst by simp, hl]
          rfl
        simp only [List.map_cons, List.length_cons]
        rw [hms, hl]
        simp only [List.drop_one, List.tail_cons]
        have e1 : s.messages.length + 1 - 1 + rest.length - s.maxMessages =
            rest.length := by omega
        have e2 : s.messages.length + (rest.length + 1) - s.maxMessages =
            rest.length + 1 := by omega
        rw [e1, e2, List.drop_succ_cons]
      · rw [hstep, addMessage_of_le s p.1 p.2 (by omega)]
        have h2 := ih
          { s with
            messages := s.messages ++ [p.1]
            timestamps := s.timestamps ++ [p.2] }
          (by simp; omega)
        simp only [List.length_append, List.length_singleton] at h2
        rw [h2]
        rw [List.append_assoc]
        simp only [List.singleton_append, List.cons_append,
          List.map_cons, List.length_cons]
        congr 1
        omega

/-- C6: each `AddMessage` appends `(text, now)` at the back of the two
parallel lists; when the stored count would exceed `maxEntries` the oldest
(front) entry of both lists is evicted; consequently, starting from an
empty log, any sequence of adds leaves exactly the last `maxEntries`
messages in insertion order — in particular with `maxEntries = 3`, adding
A, B, C, D leaves exactly B, C, D (A evicted) with their timestamps. -/
theorem status_log_bounded_fifo :
    (∀ (s : StatusState) (x : String) (t : ℚ),
      s.messages.length + 1 ≤ s.maxMessages →
      s.addMessage x t =
        { s with
          messages := s.messages ++ [x]
          timestamps := s.timestamps ++ [t] })
    ∧ (∀ (s : StatusState) (x : String) (t : ℚ),
      s.maxMessages < s.messages.length + 1 →
      s.addMessage x t =
        { s with
          messages := (s.messages ++ [x]).drop 1
          timestamps := (s.timestamps ++ [t]).drop 1 })
    ∧ (∀ (adds : List (String × ℚ)) (maxEntries : Nat),
      (addMessages ⟨[], [], maxEntries⟩ adds).messages =
        (adds.map Prod.fst).drop (adds.length - maxEntries))
    ∧ (addMessages ⟨[], [], 3⟩
        [("A", 0), ("B", 1), ("C", 2), ("D", 3)]).messages =
      ["B", "C", "D"]
    ∧ (addMessages ⟨[], [], 3⟩
        [("A", 0), ("B", 1), ("C", 2), ("D", 3)]).timestamps =
      [1, 2, 3] := by
  refine ⟨addMessage_of_le, addMessage_of_over, ?_, ?_, ?_⟩
  · intro adds maxEntries
    have h := addMessages_messages adds ⟨[], [], maxEntries⟩ (by simp)
    simpa using h
  · norm_num [addMessages, StatusState.addMessage]
  · norm_num [addMessages, StatusState.addMessage]

/-- Witness for `status_log_bounded_fifo`: an under-capacity add appends,
an at-capacity add evicts the front. -/
theorem status_log_bounded_fifo_witness :
    StatusState.addMessage ⟨["a"], [0], 2⟩ "b" 1 = ⟨["a", "b"], [0, 1], 2⟩
    ∧ StatusState.addMessage ⟨["a", "b"], [0, 1], 2⟩ "c" 2 =
      ⟨["b", "c"], [1, 2], 2⟩ := by
  have h := status_log_bounded_fifo
  constructor
  · rw [h.1 ⟨["a"], [0], 2⟩ "b" 1 (by norm_num)]
    rfl
  · rw [h.2.1 ⟨["a", "b"], [0, 1], 2⟩ "c" 2 (by norm_num)]
    rfl

/-- The state-record invariant of the status log: the two parallel lists
have equal length, bounded by the capacity. -/
def statusInv (s : StatusState) : Prop :=
  s.messages.length = s.timestamps.length ∧
    s.messages.length ≤ s.maxMessages

/-- Zipping equal-length tails commutes with taking the tail of the zip. -/
theorem zip_drop_one {α β : Type} (A : List α) (B : List β) :
    (A.drop 1).zip (B.drop 1) = (A.zip B).drop 1 := by
  cases A <;> cases B <;> simp

/-- C9: the status-log invariant — equal list lengths, bounded by the
capacity — holds for the record `getState` creates, is preserved by every
`getState` (which also keeps every stored record's invariant intact), is
preserved by `AddMessage`, and `Build` does not mutate the state at all;
moreover after `AddMessage` the zip of the two lists is exactly the
previous zipped history plus the new `(text, time)` pair, minus the front
entry on eviction — so position `i` of `timestamps` is the insertion time
of position `i` of `messages`. -/
theorem status_state_invariant :
    (∀ (s : StatusState) (x : String) (t : ℚ),
      statusInv s → statusInv (s.addMessage x t))
    ∧ (∀ (s : StatusState) (x : String) (t : ℚ),
      s.messages.length = s.timestamps.length →
      ((s.addMessage x t).messages).zip (s.addMessage x t).timestamps =
        ((s.messages.zip s.timestamps) ++ [(x, t)]).drop
          (if s.maxMessages < s.messages.length + 1 then 1 else 0))
    ∧ (∀ (t : ℚ) (s : StatusState), (StatusDisplayWidget.Build t s).1 = s)
    ∧ (∀ (w : StatusDisplayWidget) (m : StateMap),
      (∀ (k : String) (st : StatusState),
        mapLookup m k = some (.statusSt st) → statusInv st) →
      statusInv (w.getState m).1 ∧
        (∀ (k : String) (st : StatusState),
          mapLookup (w.getState m).2 k = some (.statusSt st) →
          statusInv st)) := by
  refine ⟨?_, ?_, fun t s => rfl, ?_⟩
  · intro s x t hinv
    obtain ⟨h1, h2⟩ := hinv
    unfold StatusState.addMessage
    split
    next hcond =>
      simp only [List.length_append, List.length_singleton] at hcond
      constructor <;> simp <;> omega
    next hcond =>
      simp only [List.length_append, List.length_singleton] at hcond
      constructor <;> simp <;> omega
  · intro s x t hlen
    by_cases hc : s.maxMessages < s.messages.length + 1
    · rw [addMessage_of_over s x t hc, if_pos hc]
      simp only
      rw [zip_drop_one, List.zip_append hlen]
      rfl
    · rw [addMessage_of_le s x t (by omega), if_neg hc]
      simp only
      rw [List.zip_append hlen]
      rfl
  · intro w m hm
    unfold StatusDisplayWidget.getState
    cases hl : mapLookup m w.id with
    | none =>
        refine ⟨⟨rfl, by norm_num⟩, ?_⟩
        intro k st hk
        rw [mapLookup_mapInsert] at hk
        by_cases hw : w.id = k
        · rw [if_pos hw] at hk
          cases hk
          exact ⟨rfl, by norm_num⟩
        · rw [if_neg hw] at hk
          exact hm k st hk
    | some r =>
        cases r with
        | statusSt st => exact ⟨hm w.id st hl, hm⟩
        | counterSt st =>
            refine ⟨⟨rfl, by norm_num⟩, ?_⟩
            intro k st2 hk
            rw [mapLookup_mapInsert] at hk
            by_cases hw : w.id = k
            · rw [if_pos hw] at hk
              cases hk
              exact ⟨rfl, by norm_num⟩
            · rw [if_neg hw] at hk
              exact hm k st2 hk
        | timerSt st =>
            refine ⟨⟨rfl, by norm_num⟩, ?_⟩
            intro k st2 hk
            rw [mapLookup_mapInsert] at hk
            by_cases hw : w.id = k
            · rw [if_pos hw] at hk
              cases hk
              exact ⟨rfl, by norm_num⟩
            · rw [if_neg hw] at hk
              exact hm k st2 hk

/-- Witness for `status_state_invariant`: the invariant survives an add on
a concrete in-invariant state, the zip tracks the insertion, and a
`getState` on a store holding one good record returns an in-invariant
record. -/
theorem status_state_invariant_witness :
    statusInv (StatusState.addMessage ⟨["a"], [0], 2⟩ "b" 1)
    ∧ ((StatusState.addMessage ⟨["a"], [0], 2⟩ "b" 1).messages).zip
        (StatusState.addMessage ⟨["a"], [0], 2⟩ "b" 1).timestamps =
      [("a", 0), ("b", 1)]
    ∧ statusInv (StatusDisplay.getState
        [("##status_display", .statusSt ⟨["a"], [0], 2⟩)]).1 := by
  have h := status_state_invariant
  refine ⟨h.1 ⟨["a"], [0], 2⟩ "b" 1 ⟨rfl, by norm_num⟩, ?_, ?_⟩
  · rw [h.2.1 ⟨["a"], [0], 2⟩ "b" 1 rfl]
    norm_num
  · exact (h.2.2.2 StatusDisplay
      [("##status_display", .statusSt ⟨["a"], [0], 2⟩)]
      (by
        intro k st hk
        unfold mapLookup at hk
        by_cases hw : "##status_display" = k
        · rw [if_pos hw] at hk
          cases hk
          exact ⟨rfl, by norm_num⟩
        · rw [if_neg hw] at hk
          cases hk)).1

end Gui
